import Mathlib

/-!
Verification development for the MX-BOT repository.

Shallow embedding of the modules the specification's claims are about:
`utils.py` (URL classification, verification-code generation, rate limiter),
`downloader.py` (format parsing, file size, cleanup), `keyboards.py`
(quality menu), `instagram_handler.py` (inbox scanning), `database.py`
(verification records, accounts, counters) and `bot.py` (message routing,
verification confirmation, and the two download pipelines).

Strings are modelled with Lean `String`/`List Char` (both sides are
Unicode text with ASCII-only operations in the relevant code paths),
wall-clock timestamps with `ℚ` (Python float timestamps), byte sizes with
`ℕ`, and the scratch download directory with a `List String` of the paths
currently existing on disk.  Calls into the external provider libraries
are modelled by oracle structures whose fields carry the values the calls
would return, with `Except` for calls that may raise.
-/

namespace MXBot

/-! ## Basic character/string helpers (ASCII semantics of the Python code) -/

/-- `[A-Za-z0-9_-]`, the character class of an Instagram post shortcode in
`extract_instagram_url`. -/
def igSlugChar (c : Char) : Bool :=
  c.isAlpha || c.isDigit || c == '_' || c == '-'

/-- `[A-Za-z0-9._]`, the character class of an Instagram username in
`extract_instagram_url` (stories pattern). -/
def igUserChar (c : Char) : Bool :=
  c.isAlpha || c.isDigit || c == '.' || c == '_'

/-- If `lit` is a prefix of `cs`, drop it and return the rest. -/
def dropLit (lit : List Char) (cs : List Char) : Option (List Char) :=
  if lit.isPrefixOf cs then some (cs.drop lit.length) else none

/-- Does `p` hold at some suffix of `cs` (i.e. at some start position)? -/
def anyStart (p : List Char → Bool) : List Char → Bool
  | [] => p []
  | c :: cs => p (c :: cs) || anyStart p cs

/-- Substring containment, Python's `needle in haystack`. -/
def strContains (haystack needle : String) : Bool :=
  anyStart (fun cs => needle.data.isPrefixOf cs) haystack.data

/-! ## `utils.extract_instagram_url`

The Python function `re.search`es the patterns
`(?:https?://)?(?:www\.)?instagram\.com/(?:p|reel|tv)/([A-Za-z0-9_-]+)` and
`(?:https?://)?(?:www\.)?instagram\.com/stories/([A-Za-z0-9._]+)/(\d+)` in
the whole message text and returns the matched text, or `None`.

For routing (`bot.py` uses only the truthiness of the result) what matters
is whether a match exists.  Both optional groups may be empty, so a match
exists iff the mandatory core of one of the patterns occurs somewhere in
the text; `extract_instagram_url_found` decides exactly that. -/

/-- Does the core of the post/reel/tv pattern match at the start of `cs`:
`instagram.com/` then one of `p/`, `reel/`, `tv/`, then at least one
shortcode character? -/
def igPostCoreAt (cs : List Char) : Bool :=
  match dropLit "instagram.com/".data cs with
  | none => false
  | some rest =>
    (match dropLit "p/".data rest with
     | some r => (r.headD ' ' |> igSlugChar) && r ≠ []
     | none => false) ||
    (match dropLit "reel/".data rest with
     | some r => (r.headD ' ' |> igSlugChar) && r ≠ []
     | none => false) ||
    (match dropLit "tv/".data rest with
     | some r => (r.headD ' ' |> igSlugChar) && r ≠ []
     | none => false)

/-- Does the core of the stories pattern match at the start of `cs`:
`instagram.com/stories/` then a nonempty run of username characters, then
`/`, then a digit?  (The username class excludes `/`, so the regex run is
necessarily the maximal run.) -/
def igStoriesCoreAt (cs : List Char) : Bool :=
  match dropLit "instagram.com/stories/".data cs with
  | none => false
  | some rest =>
    let run := rest.takeWhile igUserChar
    let after := rest.drop run.length
    run ≠ [] &&
      (match after with
       | '/' :: d :: _ => d.isDigit
       | _ => false)

/-- `extract_instagram_url(text) is not None`: some position of the text
matches one of the two Instagram URL patterns. -/
def extract_instagram_url_found (text : String) : Bool :=
  anyStart (fun cs => igPostCoreAt cs || igStoriesCoreAt cs) text.data

/-! ## `utils.extract_media_url`

`re.search(r'https?://[^\s<>"{}|\\^`\[\]]+', text)`, then the match has
trailing `.,;:!?` stripped. -/

/-- The negated character class of the URL body: not whitespace and not one
of `< > " | ^ [ ]`, backslash, backtick, or the two braces (written by
code point to keep them out of string literals). -/
def urlBodyChar (c : Char) : Bool :=
  !(c == ' ' || c == '\t' || c == '\n' || c == '\r' ||
    c == Char.ofNat 11 || c == Char.ofNat 12 ||
    c == '<' || c == '>' || c == '"' || c == '|' || c == '\\' || c == '^' ||
    c == '[' || c == ']' ||
    c == Char.ofNat 96 || c == Char.ofNat 123 || c == Char.ofNat 125)

/-- Trailing-punctuation strip, Python `url.rstrip('.,;:!?')`. -/
def rstripPunct (cs : List Char) : List Char :=
  (cs.reverse.dropWhile
    (fun c => c == '.' || c == ',' || c == ';' || c == ':' || c == '!' || c == '?')).reverse

/-- Try to match `https?://` followed by one-or-more URL body characters at
the start of `cs`; on success return the greedy (maximal) match. -/
def mediaUrlMatchAt (cs : List Char) : Option (List Char) :=
  let attempt (scheme : List Char) : Option (List Char) :=
    match dropLit scheme cs with
    | none => none
    | some rest =>
      let run := rest.takeWhile urlBodyChar
      if run = [] then none else some (scheme ++ run)
  -- the regex alternation `https?` prefers the longer `https` when both fit,
  -- but at a given position at most one of the two literals can match
  match attempt "https://".data with
  | some m => some m
  | none => attempt "http://".data

/-- Leftmost regex match: try every start position left to right. -/
def searchMediaUrl : List Char → Option (List Char)
  | [] => none
  | c :: cs =>
    match mediaUrlMatchAt (c :: cs) with
    | some m => some m
    | none => searchMediaUrl cs

/-- `utils.extract_media_url`. -/
def extract_media_url (text : String) : Option String :=
  match searchMediaUrl text.data with
  | some m => some (String.mk (rstripPunct m))
  | none => none

/-! ## `urllib.parse.urlparse(...).netloc`, as used by
`is_instagram_url` / `is_ytdlp_supported_url`.

Both callers first prepend `https://` unless the URL starts with `http`,
then read `parsed.netloc`: the run after a leading `//` of the
scheme-stripped URL, up to the first `/`, `?` or `#`. -/

/-- A character allowed in a URL scheme after the leading letter. -/
def schemeChar (c : Char) : Bool :=
  c.isAlpha || c.isDigit || c == '+' || c == '-' || c == '.'

/-- Split off `scheme:` as `urlparse` does: if the text up to the first `:`
is a nonempty run of scheme characters starting with a letter, drop it
(with the colon); otherwise leave the text unchanged. -/
def dropScheme (cs : List Char) : List Char :=
  let before := cs.takeWhile (fun c => c ≠ ':')
  let after := cs.drop before.length
  match after with
  | ':' :: rest =>
    if before ≠ [] && (before.headD ' ').isAlpha && before.all schemeChar
    then rest else cs
  | _ => cs

/-- `urlparse(u).netloc`. -/
def netlocOf (u : String) : String :=
  let rest := dropScheme u.data
  match rest with
  | '/' :: '/' :: tail =>
    String.mk (tail.takeWhile (fun c => c ≠ '/' && c ≠ '?' && c ≠ '#'))
  | _ => ""

/-- Python `str.startswith`. -/
def strStartsWith (s pre : String) : Bool :=
  pre.data.isPrefixOf s.data

/-- Python `str.endswith`. -/
def strEndsWith (s suf : String) : Bool :=
  suf.data.isSuffixOf s.data

/-- Python `str.lower()` (ASCII; the hostnames involved are ASCII). -/
def strLower (s : String) : String :=
  String.mk (s.data.map Char.toLower)

/-- The hostname the classifiers compare: `urlparse` netloc of the URL
(with `https://` prepended unless it starts with `http`), lowercased, with
a leading `www.` removed. -/
def classifierHostname (url : String) : String :=
  let full := if strStartsWith url "http" then url else "https://" ++ url
  let h := strLower (netlocOf full)
  if strStartsWith h "www." then String.mk (h.data.drop 4) else h

/-- `utils.is_instagram_url`. -/
def is_instagram_url (url : String) : Bool :=
  if url = "" then false
  else classifierHostname url == "instagram.com"

/-- The allow-list of `utils.is_ytdlp_supported_url`. -/
def supported_domains : List String :=
  ["youtube.com", "youtu.be", "soundcloud.com", "twitter.com", "x.com",
   "tiktok.com", "vimeo.com", "dailymotion.com", "twitch.tv",
   "facebook.com", "fb.watch", "reddit.com", "streamable.com",
   "bandcamp.com", "mixcloud.com", "bilibili.com"]

/-- `utils.is_ytdlp_supported_url`: exact allow-list membership or a true
subdomain (`hostname.endswith('.' + domain)`). -/
def is_ytdlp_supported_url (url : String) : Bool :=
  if url = "" then false
  else
    let hostname := classifierHostname url
    hostname ∈ supported_domains ||
      supported_domains.any (fun d => strEndsWith hostname ("." ++ d))

/-! ## `bot.MXBot.message_router`: classification of an inbound text -/

/-- Where `message_router` sends a plain text message. -/
inductive Route where
  | menu            -- one of the five reply-keyboard buttons
  | instagram       -- `download_handler` (Instagram pipeline)
  | ytdlp           -- `ytdlp_download_handler`, via the allow-list branch
  | ytdlpFallback   -- `ytdlp_download_handler`, via the any-URL fallback branch
  | unknown         -- the "invalid command" reply
  deriving DecidableEq, Repr

/-- The five reply-keyboard button texts checked first by the router. -/
def menuButtons : List String :=
  ["📥 دانلود", "📱 حساب‌های من", "📊 آمار", "❓ راهنما", "👨‍💼 پنل مدیریت"]

/-- The routing decision of `MXBot.message_router` for a text message. -/
def message_router (text : String) : Route :=
  if text ∈ menuButtons then .menu
  else if extract_instagram_url_found text then .instagram
  else if is_ytdlp_supported_url ((extract_media_url text).getD "") then .ytdlp
  else if (extract_media_url text).isSome then .ytdlpFallback
  else .unknown

/-! ## `utils.RateLimiter`

`last_request` maps a chat identity to the timestamp of its last admitted
request (Python float timestamps are modelled as `ℚ`).  `can_proceed`
returns the `(allowed, retry_after)` pair and the updated limiter; the
Python `int(...)` truncation is the floor `⌊·⌋` (the argument is positive
on the branch where it is taken, where truncation and floor agree). -/

structure RateLimiter where
  last_request : Nat → Option ℚ

/-- `RateLimiter.can_proceed(user_id, cooldown)` at wall-clock `now`. -/
def RateLimiter.can_proceed (rl : RateLimiter) (user_id : Nat) (now : ℚ) (cooldown : ℚ) :
    (Bool × ℤ) × RateLimiter :=
  match rl.last_request user_id with
  | some t =>
    let time_passed := now - t
    if time_passed < cooldown then
      ((false, ⌊cooldown - time_passed⌋), rl)
    else
      ((true, 0), ⟨fun u => if u = user_id then some now else rl.last_request u⟩)
  | none => ((true, 0), ⟨fun u => if u = user_id then some now else rl.last_request u⟩)

/-! ## `utils.generate_verification_code`

`random.choice(string.ascii_uppercase + string.digits)` repeated `length`
times; the randomness source is modelled as an oracle `pick` that selects
an index into the alphabet for each position. -/

/-- `string.ascii_uppercase + string.digits`. -/
def codeAlphabet : List Char := "ABCDEFGHIJKLMNOPQRSTUVWXYZ0123456789".data

/-- `utils.generate_verification_code`. -/
def generate_verification_code (pick : Nat → Fin codeAlphabet.length) (len : Nat) : String :=
  String.mk ((List.range len).map (fun i => codeAlphabet.get (pick i)))

/-! ## `downloader.Downloader._parse_formats` -/

/-- The fields of a yt-dlp format dict that `_parse_formats` reads.
`height` is `fmt.get('height', 0)` with an explicit `None` modelled as `0`
(both are falsy in the `if height:` test and both sort as `0`). -/
structure RawFormat where
  has_url : Bool        -- truthiness of fmt.get('url')
  format_id : String
  ext : String
  height : Nat
  width : Nat
  filesize : Nat
  vcodec : String       -- 'none' when the format has no video stream
  acodec : String
  format_note : String
  deriving DecidableEq, Repr

/-- One entry of the list `_parse_formats` returns. -/
structure ParsedFormat where
  format_id : String
  ext : String
  quality : String
  height : Nat
  width : Nat
  filesize : Nat
  has_video : Bool
  has_audio : Bool
  deriving DecidableEq, Repr

/-- The quality label `_parse_formats` builds:
`f"{height}p"` when `height` is truthy, else `format_note`, else
`format_id`. -/
def qualityLabel (fmt : RawFormat) : String :=
  if fmt.height ≠ 0 then toString fmt.height ++ "p"
  else if fmt.format_note ≠ "" then fmt.format_note
  else fmt.format_id

/-- The filtering/deduplication loop of `_parse_formats`, threading the
`seen_qualities` set. -/
def parseFormatsLoop : List RawFormat → List String → List ParsedFormat
  | [], _ => []
  | fmt :: rest, seen =>
    if !fmt.has_url then parseFormatsLoop rest seen
    else if fmt.vcodec == "none" && fmt.acodec != "none" then parseFormatsLoop rest seen
    else
      let q := qualityLabel fmt
      if q ∈ seen then parseFormatsLoop rest seen
      else
        { format_id := fmt.format_id, ext := fmt.ext, quality := q,
          height := fmt.height, width := fmt.width, filesize := fmt.filesize,
          has_video := fmt.vcodec != "none", has_audio := fmt.acodec != "none" }
          :: parseFormatsLoop rest (q :: seen)

/-- One step of a stable descending insertion sort on `height`
(`parsed.sort(key=..., reverse=True)`: descending, ties keep list order). -/
def insertByHeight (f : ParsedFormat) : List ParsedFormat → List ParsedFormat
  | [] => [f]
  | g :: gs => if g.height > f.height then g :: insertByHeight f gs else f :: g :: gs

/-- Stable descending sort on `height`. -/
def sortByHeightDesc : List ParsedFormat → List ParsedFormat
  | [] => []
  | f :: fs => insertByHeight f (sortByHeightDesc fs)

/-- `downloader.Downloader._parse_formats`: filter, deduplicate by quality
label, sort by height descending, keep the top 8. -/
def parse_formats (formats : List RawFormat) : List ParsedFormat :=
  (sortByHeightDesc (parseFormatsLoop formats [])).take 8

/-! ## `keyboards.Keyboards.download_options`

The quality-selection keyboard `ytdlp_download_handler` actually presents:
a fixed set of buttons (callback data `dl:best`, `dl:720`, `dl:480`,
`dl:360`, `dl:240`, `dl:audio`, `cancel_download`), independent of the
probed formats. -/

/-- One button of the fixed download-options keyboard, named by its
callback quality tag. -/
inductive QualityButton where
  | best | q720 | q480 | q360 | q240 | audio | cancel
  deriving DecidableEq, Repr

/-- The numeric height a video button stands for (`best` has none). -/
def QualityButton.heightOf : QualityButton → Option Nat
  | .q720 => some 720
  | .q480 => some 480
  | .q360 => some 360
  | .q240 => some 240
  | _ => none

/-- `keyboards.Keyboards.download_options(url, has_audio, has_video)` as
its rows of buttons (the `url[:50]` embedded in the callback data does not
affect which options are shown). -/
def download_options (has_audio has_video : Bool) : List (List QualityButton) :=
  (if has_video then [[.best], [.q720, .q480], [.q360, .q240]] else []) ++
  (if has_audio then [[.audio]] else []) ++ [[.cancel]]

/-- `ytdlp_download_handler`: when `downloader.get_video_info` succeeds
(returns a dict) the quality menu shown is `download_options(url)` with
both flags at their defaults; on a failed probe no menu is shown (direct
best-quality download instead).  The probe result is modelled by the raw
format list it would carry. -/
def ytdlp_quality_menu (probe : Option (List RawFormat)) :
    Option (List (List QualityButton)) :=
  probe.map (fun _ => download_options true true)

/-! ## `database.Database`: the tables and operations the claims touch -/

/-- One row of `pending_verifications`. -/
structure VerificationRecord where
  user_id : Nat
  instagram_username : String
  verification_code : String
  expires_at : ℚ
  deriving DecidableEq, Repr

/-- One row of `instagram_accounts` (the columns the confirmation flow
reads). -/
structure InstagramAccount where
  id : Nat
  user_id : Nat
  instagram_username : String
  is_verified : Bool
  deriving DecidableEq, Repr

/-- The database state the claims are about: the pending-verification
table (id ↦ row), the accounts table (in the `created_at DESC` order the
queries return), the per-user `download_count` column and the number of
rows of the `downloads` history table. -/
structure DB where
  pending_verifications : List (Nat × VerificationRecord)
  instagram_accounts : List InstagramAccount
  download_count : Nat → Nat
  downloads : Nat

/-- `Database.get_verification`: `SELECT * FROM pending_verifications WHERE id = ?`. -/
def DB.get_verification (db : DB) (vid : Nat) : Option VerificationRecord :=
  (db.pending_verifications.find? (fun p => p.1 == vid)).map Prod.snd

/-- `Database.delete_verification`: `DELETE FROM pending_verifications WHERE id = ?`. -/
def DB.delete_verification (db : DB) (vid : Nat) : DB :=
  { db with pending_verifications := db.pending_verifications.filter (fun p => p.1 != vid) }

/-- `Database.has_verified_account`: does the user own at least one row of
`instagram_accounts` with `is_verified = 1`? -/
def DB.has_verified_account (db : DB) (uid : Nat) : Bool :=
  db.instagram_accounts.any (fun a => a.user_id == uid && a.is_verified)

/-- `Database.get_user_instagram_accounts` (rows already in query order). -/
def DB.get_user_instagram_accounts (db : DB) (uid : Nat) : List InstagramAccount :=
  db.instagram_accounts.filter (fun a => a.user_id == uid)

/-- `Database.verify_instagram_account`: `UPDATE instagram_accounts SET is_verified = 1 WHERE id = ?`. -/
def DB.verify_instagram_account (db : DB) (aid : Nat) : DB :=
  { db with instagram_accounts :=
      db.instagram_accounts.map (fun a => if a.id == aid then { a with is_verified := true } else a) }

/-- `Database.increment_download_count`: `UPDATE users SET download_count = download_count + 1 WHERE user_id = ?`. -/
def DB.increment_download_count (db : DB) (uid : Nat) : DB :=
  { db with download_count :=
      fun u => if u = uid then db.download_count u + 1 else db.download_count u }

/-- `Database.add_download`: inserts one row into the `downloads` table
(only the row count matters for the claims). -/
def DB.add_download (db : DB) : DB :=
  { db with downloads := db.downloads + 1 }

/-! ## `instagram_handler.InstagramHandler.check_direct_message`

The instagrapi client is modelled by an oracle giving the value (or the
exception) of each call the scan makes: the regular thread listing, the
pending ("message requests") thread listing, and the per-thread message
listing.  A message is an `Option String` (`message.text` may be `None`). -/

structure IgClient where
  direct_threads : Except String (List Nat)
  direct_pending_inbox : Except String (List Nat)
  direct_messages : Nat → Except String (List (Option String))

/-- `if message.text and verification_code in message.text`. -/
def msgHasCode (code : String) : Option String → Bool
  | some t => t ≠ "" && strContains t code
  | none => false

/-- Scan a list of threads: fetch each thread's recent messages and stop
as soon as one contains the code; a raised provider error propagates. -/
def scanThreads (c : IgClient) (code : String) : List Nat → Except String Bool
  | [] => .ok false
  | th :: rest =>
    match c.direct_messages th with
    | .error e => .error e
    | .ok msgs =>
      if msgs.any (msgHasCode code) then .ok true else scanThreads c code rest

/-- `InstagramHandler.check_direct_message(verification_code)`:
`True` iff the code is found in the regular inbox or, failing that, in the
pending ("message requests") inbox; every provider failure is caught (the
pending-inbox scan by its inner `try`, everything else by the outer one)
and yields `False`.  The best-effort `direct_thread_approve` after a
pending-inbox hit swallows its own errors and does not affect the result.
`client = none` models `get_client()` returning no active client. -/
def check_direct_message (client : Option IgClient) (code : String) : Bool :=
  match client with
  | none => false
  | some c =>
    match c.direct_threads with
    | .error _ => false
    | .ok ths =>
      match scanThreads c code ths with
      | .error _ => false
      | .ok true => true
      | .ok false =>
        match c.direct_pending_inbox with
        | .error _ => false
        | .ok pths =>
          match scanThreads c code pths with
          | .error _ => false
          | .ok b => b

/-! ## `bot.MXBot.check_verification` (the `confirm` operation) -/

/-- What the confirmation callback shows the user.  `noSuchRecord` is the
"کد تایید منقضی شده است" edit made when the record id is absent;
`notFound` is the VERIFICATION_FAILED retry message; `verified` is the
success message.  (There is no separate expired outcome in the code.) -/
inductive ConfirmOutcome where
  | noSuchRecord
  | verified (username : String)
  | notFound
  deriving DecidableEq, Repr

/-- `MXBot.check_verification`: look the record up, scan the inboxes, and
on success mark the first matching account verified and delete the
record; otherwise leave the record untouched.  `_now` is the wall clock at
the time of the call — the code never reads it (it never compares
`expires_at` with the current time). -/
def check_verification (db : DB) (vid : Nat) (ig_init : Bool)
    (client : Option IgClient) (_now : ℚ) : ConfirmOutcome × DB :=
  match db.get_verification vid with
  | none => (.noSuchRecord, db)
  | some v =>
    let code_found := ig_init && check_direct_message client v.verification_code
    if code_found then
      let accounts := db.get_user_instagram_accounts v.user_id
      let db1 :=
        match accounts.find? (fun a => a.instagram_username == v.instagram_username) with
        | some acc => db.verify_instagram_account acc.id
        | none => db
      (.verified v.instagram_username, db1.delete_verification vid)
    else (.notFound, db)

/-! ## File handling: `downloader.get_file_size` / `downloader.cleanup_file`

The scratch downloads directory is a list of the paths currently on disk;
`sizes` gives each path's byte size. -/

/-- The 50 MiB limit `50 * 1024 * 1024` of `bot.py`. -/
def fileSizeLimit : Nat := 50 * 1024 * 1024

/-- `Downloader.get_file_size`: `os.path.getsize`, with any failure
(missing file) giving `0`. -/
def get_file_size (sizes : String → Nat) (disk : List String) (filepath : String) : Nat :=
  if filepath ∈ disk then sizes filepath else 0

/-- `Downloader.cleanup_file`: `os.remove(filepath)` when the file exists
(and swallow errors). -/
def cleanup_file (disk : List String) (filepath : String) : List String :=
  disk.erase filepath

/-! ## `bot.MXBot._perform_download` (generic yt-dlp pipeline) -/

/-- The part of a `download_with_quality` result the pipeline uses. -/
structure YtdlpResult where
  filepath : String
  is_audio : Bool
  deriving DecidableEq, Repr

/-- The database-plus-scratch-directory state one pipeline run threads. -/
structure PipelineState where
  db : DB
  disk : List String

/-- Exit paths of `_perform_download`:
`noResult` — the downloader returned `None` (failure message edited);
`tooLarge` — FILE_TOO_LARGE reply sent, file cleaned up;
`delivered` — uploaded, cleaned up, download recorded and counted;
`exceptionShown` — an exception during processing/upload was caught and an
error message edited (nothing else happens on this path). -/
inductive PerformOutcome where
  | noResult
  | tooLarge
  | delivered
  | exceptionShown
  deriving DecidableEq, Repr

/-- `MXBot._perform_download`: fetch (writes `r.filepath` into the scratch
directory), size-gate at 50 MiB, upload, cleanup, record.  `uploadOk`
models whether the chat-transport upload call raises; the surrounding
`try/except` only edits the status message on an exception. -/
def perform_download (result : Option YtdlpResult) (sizes : String → Nat)
    (uploadOk : Bool) (uid : Nat) (st : PipelineState) : PerformOutcome × PipelineState :=
  match result with
  | none => (.noResult, st)
  | some r =>
    let disk1 := st.disk ++ [r.filepath]
    let file_size := get_file_size sizes disk1 r.filepath
    if file_size > fileSizeLimit then
      (.tooLarge, { st with disk := cleanup_file disk1 r.filepath })
    else if uploadOk then
      let db1 := (st.db.add_download).increment_download_count uid
      (.delivered, { db := db1, disk := cleanup_file disk1 r.filepath })
    else
      (.exceptionShown, { st with disk := disk1 })

/-! ## `bot.MXBot.download_handler` (Instagram pipeline) -/

/-- Network fetch attempts the Instagram pipeline can make. -/
inductive FetchEvent where
  | igGetMediaInfo
  | igDownloadMedia
  | ytdlpDownload
  deriving DecidableEq, Repr

/-- The fields of `get_media_info`'s result the handler reads. -/
structure MediaInfo where
  username : String
  media_type : String
  like_count : Nat
  comment_count : Nat
  deriving DecidableEq, Repr

/-- Exit paths of `download_handler`. -/
inductive IgOutcome where
  | notMember                                   -- membership middleware stopped it
  | noVerifiedAccount                           -- NO_VERIFIED_ACCOUNT reply
  | rateLimited (retry : ℤ)                     -- RATE_LIMIT reply
  | invalidLink                                 -- INVALID_LINK reply
  | fallbackDelivered                           -- yt-dlp fallback document delivered
  | fallbackFailed                              -- "رسانه یافت نشد"
  | downloadFailed                              -- Instagram download returned nothing
  | deliveredCarousel (delivered rejected : List String)
  deriving DecidableEq, Repr

/-- The external collaborators of one `download_handler` run: the
membership middleware's verdict, whether the Instagram client is
initialized, and what each backend call would return. -/
structure IgEnv where
  member : Bool
  ig_init : Bool
  media_info : Option MediaInfo
  ig_files : Option (List String)
  ytdlp_result : Option YtdlpResult
  sizes : String → Nat

/-- The per-file delivery loop over a multi-file (carousel) download:
skip paths no longer on disk, reject-and-delete oversized files
(`continue`), deliver, delete and record the rest.  Returns the final
state and the delivered and size-rejected path lists. -/
def carouselLoop (sizes : String → Nat) :
    List String → PipelineState → PipelineState × List String × List String
  | [], st => (st, [], [])
  | fp :: rest, st =>
    if fp ∈ st.disk then
      if get_file_size sizes st.disk fp > fileSizeLimit then
        let res := carouselLoop sizes rest { st with disk := cleanup_file st.disk fp }
        (res.1, res.2.1, fp :: res.2.2)
      else
        let res := carouselLoop sizes rest
          { db := st.db.add_download, disk := cleanup_file st.disk fp }
        (res.1, fp :: res.2.1, res.2.2)
    else carouselLoop sizes rest st

/-- `MXBot.download_handler`: membership gate, verified-account gate, rate
limit, link extraction, Instagram info fetch (with yt-dlp fallback when it
yields nothing), multi-file download, per-file size gate and delivery,
then one `increment_download_count`.  Returns the outcome, the updated
rate limiter and state, and the network fetch attempts made. -/
def download_handler (env : IgEnv) (uid : Nat) (text : String)
    (rl : RateLimiter) (now : ℚ) (st : PipelineState) :
    IgOutcome × RateLimiter × PipelineState × List FetchEvent :=
  if !env.member then (.notMember, rl, st, [])
  else if !(st.db.has_verified_account uid) then (.noVerifiedAccount, rl, st, [])
  else
    let rlr := rl.can_proceed uid now 5
    if !rlr.1.1 then (.rateLimited rlr.1.2, rlr.2, st, [])
    else if !(extract_instagram_url_found text) then (.invalidLink, rlr.2, st, [])
    else
      let ev0 := if env.ig_init then [FetchEvent.igGetMediaInfo] else []
      match (if env.ig_init then env.media_info else none) with
      | none =>
        match env.ytdlp_result with
        | some r =>
          let disk1 := st.disk ++ [r.filepath]
          let db1 := (st.db.add_download).increment_download_count uid
          (.fallbackDelivered, rlr.2,
            { db := db1, disk := cleanup_file disk1 r.filepath },
            ev0 ++ [.ytdlpDownload])
        | none => (.fallbackFailed, rlr.2, st, ev0 ++ [.ytdlpDownload])
      | some _ =>
        match env.ig_files with
        | none => (.downloadFailed, rlr.2, st, ev0 ++ [.igDownloadMedia])
        | some files =>
          if files = [] then (.downloadFailed, rlr.2, st, ev0 ++ [.igDownloadMedia])
          else
            let res := carouselLoop env.sizes files { st with disk := st.disk ++ files }
            (.deliveredCarousel res.2.1 res.2.2, rlr.2,
              { res.1 with db := res.1.db.increment_download_count uid },
              ev0 ++ [.igDownloadMedia])

/-! # Theorems -/

/-! ## Shared helper lemmas -/

/-- Erasing a freshly appended element restores the original list. -/
theorem erase_append_self {α : Type} [DecidableEq α] {a : α} {l : List α}
    (h : a ∉ l) : (l ++ [a]).erase a = l := by
  induction l with
  | nil => simp
  | cons x xs ih =>
    have hx : x ≠ a := fun hxa => h (hxa ▸ List.mem_cons_self x xs)
    have hxs : a ∉ xs := fun hm => h (List.mem_cons_of_mem x hm)
    simp [List.erase_cons, hx, ih hxs]

/-- An allowed rate-limiter call stamps the current time for the caller. -/
theorem can_proceed_allowed_stamps (rl : RateLimiter) (uid : Nat) (t cooldown : ℚ)
    (h : (rl.can_proceed uid t cooldown).1.1 = true) :
    (rl.can_proceed uid t cooldown).2.last_request uid = some t := by
  unfold RateLimiter.can_proceed at *
  cases hc : rl.last_request uid with
  | none => simp [hc]
  | some t0 =>
    simp only [hc] at h ⊢
    by_cases hlt : t - t0 < cooldown
    · simp [hlt] at h
    · simp [hlt]

/-! ## C9 — verification codes have the configured length and alphabet -/

/-- C9: every generated one-time verification code has exactly the
requested length and consists only of characters from the configured
alphabet (uppercase letters and digits), for every randomness oracle
`pick` — in particular for every independently generated code. -/
theorem verification_code_length_and_alphabet
    (pick : Nat → Fin codeAlphabet.length) (len : Nat) :
    (generate_verification_code pick len).length = len ∧
    ∀ c ∈ (generate_verification_code pick len).data, c ∈ codeAlphabet := by
  constructor
  · simp [generate_verification_code, String.length]
  · intro c hc
    simp only [generate_verification_code, String.data] at hc
    obtain ⟨i, _, rfl⟩ := List.mem_map.1 hc
    exact codeAlphabet.get_mem (pick i).1 (pick i).2

/-! ## C1 — URL classification against host look-alike tricks

The allow-list predicates `is_instagram_url` / `is_ytdlp_supported_url`
parse the hostname and are immune to superstring/suffix tricks (the
repository's own test suite asserts exactly this), but `message_router`
does not use them to select the Instagram pipeline: it uses the regex
extractor `extract_instagram_url`, which matches anywhere in the text.
A URL carrying `instagram.com/p/…` in its *path* is therefore routed to
the Instagram download pipeline, and a suffix-trick hostname falls through
to the generic yt-dlp download handler via the router's any-URL fallback
branch. -/

/-- C1: at the failing input `https://evil.com/instagram.com/p/ABC123` the
router classifies the text as an Instagram link even though the
hostname-safe predicate of the same module rejects it; the suffix-trick
hostname `instagram.com.evil.com` still reaches the generic download
handler through the fallback branch; exact hosts and true subdomains are
classified as the correct kind. -/
theorem router_trusts_lookalike_instagram_path :
    message_router "https://evil.com/instagram.com/p/ABC123" = Route.instagram ∧
    is_instagram_url "https://evil.com/instagram.com/p/ABC123" = false ∧
    message_router "https://instagram.com.evil.com/p/ABC123" = Route.ytdlpFallback ∧
    is_ytdlp_supported_url "https://youtube.com.evil.com/watch" = false ∧
    message_router "https://youtube.com.evil.com/watch" = Route.ytdlpFallback ∧
    message_router "https://music.youtube.com/watch?v=abc" = Route.ytdlp ∧
    message_router "https://instagram.com/p/ABC123/" = Route.instagram := by
  decide

/-! ## C6 — rate-limiter cooldown window -/

/-- C6 (counterexample): a second call by the same identity 4.5 s after an
allowed call with a 5 s cooldown is denied — the window has 0.5 s left —
but the retry-after value returned is `0`, not a positive value. -/
theorem rate_limiter_denies_with_zero_retry_after :
    (((RateLimiter.can_proceed ⟨fun _ => none⟩ 1 0 5).2).can_proceed 1 (9/2) 5).1.1 = false ∧
    (((RateLimiter.can_proceed ⟨fun _ => none⟩ 1 0 5).2).can_proceed 1 (9/2) 5).1.2 = 0 ∧
    (0:ℚ) < 5 - (9/2 - 0) := by
  refine ⟨?_, ?_, by norm_num⟩ <;>
    · norm_num [RateLimiter.can_proceed]

/-- C6 (amended): after an allowed call at `t0`, a second call at `t1`
within the cooldown window is denied with retry-after `⌊remaining⌋` —
nonnegative, and positive whenever at least one full second of cooldown
remains, but `0` when less than a second remains; a call at or after the
end of the window is allowed with retry-after `0`. -/
theorem rate_limiter_cooldown_window (rl : RateLimiter) (uid : Nat)
    (t0 t1 cooldown : ℚ)
    (h0 : (rl.can_proceed uid t0 cooldown).1.1 = true) :
    (t1 - t0 < cooldown →
      ((rl.can_proceed uid t0 cooldown).2.can_proceed uid t1 cooldown).1 =
        (false, ⌊cooldown - (t1 - t0)⌋) ∧
      0 ≤ ⌊cooldown - (t1 - t0)⌋ ∧
      (1 ≤ cooldown - (t1 - t0) → 1 ≤ ⌊cooldown - (t1 - t0)⌋)) ∧
    (cooldown ≤ t1 - t0 →
      ((rl.can_proceed uid t0 cooldown).2.can_proceed uid t1 cooldown).1 = (true, 0)) := by
  have hstamp := can_proceed_allowed_stamps rl uid t0 cooldown h0
  set rl1 := (rl.can_proceed uid t0 cooldown).2 with hrl1
  constructor
  · intro hlt
    refine ⟨?_, Int.floor_nonneg.2 (by linarith),
            fun h1 => Int.le_floor.2 (by push_cast; linarith)⟩
    unfold RateLimiter.can_proceed
    rw [hstamp]
    simp [hlt]
  · intro hge
    unfold RateLimiter.can_proceed
    rw [hstamp]
    simp [not_lt.2 hge]

/-- C6 (witness): identity 1, cooldown 5 s, first call at `t = 0` allowed,
second call at `t = 2` denied with retry-after `3`; a call at `t = 5`
would be allowed. -/
theorem rate_limiter_cooldown_window_witness :
    ((RateLimiter.can_proceed ⟨fun _ => none⟩ 1 0 5).2.can_proceed 1 2 5).1 = (false, 3) ∧
    ((RateLimiter.can_proceed ⟨fun _ => none⟩ 1 0 5).2.can_proceed 1 5 5).1 = (true, 0) := by
  have h2 := rate_limiter_cooldown_window ⟨fun _ => none⟩ 1 0 2 5 rfl
  have h5 := rate_limiter_cooldown_window ⟨fun _ => none⟩ 1 0 5 5 rfl
  refine ⟨?_, ?_⟩
  · rw [(h2.1 (by norm_num)).1]
    norm_num
  · exact h5.2 (by norm_num)

/-! ## C3 / C7 — verification confirmation -/

/-- A pending-verification row whose expiry timestamp (`0`) lies in the
past at the confirmation calls considered below (`now = 100`). -/
def expiredRecord : VerificationRecord :=
  { user_id := 7, instagram_username := "alice",
    verification_code := "CODE1234", expires_at := 0 }

/-- A database holding the single expired pending record under id `1` and
the matching not-yet-verified account row. -/
def dbExpired : DB :=
  { pending_verifications := [(1, expiredRecord)],
    instagram_accounts := [⟨1, 7, "alice", false⟩],
    download_count := fun _ => 0, downloads := 0 }

/-- An Instagram client whose inboxes are reachable but empty. -/
def clientSilent : IgClient :=
  { direct_threads := .ok [], direct_pending_inbox := .ok [],
    direct_messages := fun _ => .ok [] }

/-- An Instagram client whose regular inbox holds a message containing the
code of `expiredRecord`. -/
def clientWithCode : IgClient :=
  { direct_threads := .ok [5], direct_pending_inbox := .ok [],
    direct_messages := fun _ => .ok [some "hi CODE1234"] }

/-- C3: `check_verification` never consults `expires_at`.  On the expired
record (expiry `0`, clock `100`) with the code absent from the inboxes it
returns the NotFound outcome — not Expired — and the record is still
retrievable by the same id afterwards; worse, when the code *is* found in
an inbox the expired record is accepted and the account marked Verified,
contradicting the stored 30-minute expiry the issuance flow advertises. -/
theorem confirm_ignores_expiry_and_keeps_record :
    expiredRecord.expires_at < 100 ∧
    (check_verification dbExpired 1 true (some clientSilent) 100).1 =
      ConfirmOutcome.notFound ∧
    (check_verification dbExpired 1 true (some clientSilent) 100).2.get_verification 1 =
      some expiredRecord ∧
    (check_verification dbExpired 1 true (some clientWithCode) 100).1 =
      ConfirmOutcome.verified "alice" := by
  decide

/-- A client `c` never hands the scan a message containing `code`: every
`direct_messages` call that returns at all returns only messages in which
the code does not occur. -/
def clientFindsNothing (c : IgClient) (code : String) : Prop :=
  ∀ th msgs, c.direct_messages th = .ok msgs → ∀ m ∈ msgs, msgHasCode code m = false

/-- If no successfully fetched message contains the code, a thread scan
either completes with `false` or propagates a provider error — it never
reports the code found. -/
theorem scanThreads_finds_nothing {c : IgClient} {code : String}
    (h : clientFindsNothing c code) (ths : List Nat) :
    scanThreads c code ths = .ok false ∨ ∃ e, scanThreads c code ths = .error e := by
  induction ths with
  | nil => left; rfl
  | cons th rest ih =>
    cases hm : c.direct_messages th with
    | error e => right; exact ⟨e, by simp [scanThreads, hm]⟩
    | ok msgs =>
      have hnone : msgs.any (msgHasCode code) = false := by
        rw [List.any_eq_false]
        intro m hmem
        simp [h th msgs hm m hmem]
      simpa [scanThreads, hm, hnone] using ih

/-- When the scan cannot find the code — because it is absent from every
message the provider successfully returns, or because provider calls fail
— `check_direct_message` returns `False` (never an exception). -/
theorem check_direct_message_finds_nothing {code : String}
    (client : Option IgClient)
    (h : ∀ c, client = some c → clientFindsNothing c code) :
    check_direct_message client code = false := by
  cases client with
  | none => rfl
  | some c =>
    have hc := h c rfl
    simp only [check_direct_message]
    cases hth : c.direct_threads with
    | error e => rfl
    | ok ths =>
      dsimp only
      rcases scanThreads_finds_nothing hc ths with hs | ⟨e, hs⟩
      · rw [hs]
        dsimp only
        cases hp : c.direct_pending_inbox with
        | error e => rfl
        | ok pths =>
          dsimp only
          rcases scanThreads_finds_nothing hc pths with hs2 | ⟨e2, hs2⟩ <;> rw [hs2]
      · rw [hs]

/-- C7: on a not-yet-expired pending record, when the inbox scan does not
find the code — including when any provider call during scanning fails —
the confirmation returns the NotFound outcome (never Expired, which does
not even exist as a code path, and never an uncaught error), and the
pending record remains retrievable by the same id, so the operation can be
retried. -/
theorem confirm_missing_code_retryable (db : DB) (vid : Nat)
    (v : VerificationRecord) (ig_init : Bool) (client : Option IgClient) (now : ℚ)
    (h1 : db.get_verification vid = some v)
    (_h2 : now < v.expires_at)
    (h3 : ∀ c, client = some c → clientFindsNothing c v.verification_code) :
    check_verification db vid ig_init client now = (.notFound, db) ∧
    (check_verification db vid ig_init client now).2.get_verification vid = some v := by
  have hfalse := check_direct_message_finds_nothing client h3
  have hmain : check_verification db vid ig_init client now = (.notFound, db) := by
    unfold check_verification
    rw [h1]
    simp [hfalse]
  exact ⟨hmain, by rw [hmain]; exact h1⟩

/-- A client for which every provider call raises (e.g. a network
timeout): scanning must degrade to NotFound, not to a fatal error. -/
def clientAllCallsRaise : IgClient :=
  { direct_threads := .error "ReadTimeout",
    direct_pending_inbox := .error "ReadTimeout",
    direct_messages := fun _ => .error "ReadTimeout" }

/-- A database holding one live pending record (expiry `1800`, clock `0`)
under id `1`. -/
def dbLiveRecord : DB :=
  { pending_verifications := [(1, ⟨7, "alice", "CODE1234", 1800⟩)],
    instagram_accounts := [⟨1, 7, "alice", false⟩],
    download_count := fun _ => 0, downloads := 0 }

/-- C7 (witness): a not-yet-expired record confirmed while every provider
call fails yields NotFound and the record stays retrievable. -/
theorem confirm_missing_code_retryable_witness :
    check_verification dbLiveRecord 1 true (some clientAllCallsRaise) 0 =
      (.notFound, dbLiveRecord) ∧
    (check_verification dbLiveRecord 1 true (some clientAllCallsRaise) 0).2.get_verification 1 =
      some ⟨7, "alice", "CODE1234", 1800⟩ := by
  exact confirm_missing_code_retryable dbLiveRecord 1 ⟨7, "alice", "CODE1234", 1800⟩
    true (some clientAllCallsRaise) 0 rfl (by norm_num)
    (fun c hc => by
      cases hc
      intro th msgs hmsgs
      cases hmsgs)

/-! ## C4 / C5 — size gate and cleanup in `_perform_download` -/

/-- An empty database, for concrete pipeline runs. -/
def dbEmpty : DB :=
  { pending_verifications := [], instagram_accounts := [],
    download_count := fun _ => 0, downloads := 0 }

/-- C5 (counterexample): a 1000-byte file is fetched into an empty scratch
directory, and the upload raises an exception; the pipeline exits through
the `except` handler (which only edits the status message) and the fetched
file is still on disk afterwards — cleanup does not happen on the
exception path. -/
theorem fetched_file_survives_upload_exception :
    (perform_download (some ⟨"video.mp4", false⟩) (fun _ => 1000) false 7
        ⟨dbEmpty, []⟩).1 = PerformOutcome.exceptionShown ∧
    "video.mp4" ∈ (perform_download (some ⟨"video.mp4", false⟩) (fun _ => 1000) false 7
        ⟨dbEmpty, []⟩).2.disk := by
  decide

/-- C5 (amended): the file created by the fetch is removed whenever the
pipeline exits through delivery or through the size-gate rejection; but
when an exception is raised during processing or upload, the exit runs
only the `except` handler and the file is *not* removed. -/
theorem cleanup_on_non_exception_paths (result : Option YtdlpResult)
    (sizes : String → Nat) (uploadOk : Bool) (uid : Nat) (st : PipelineState)
    (r : YtdlpResult) (hres : result = some r) (hfresh : r.filepath ∉ st.disk) :
    ((perform_download result sizes uploadOk uid st).1 = PerformOutcome.delivered ∨
     (perform_download result sizes uploadOk uid st).1 = PerformOutcome.tooLarge →
      r.filepath ∉ (perform_download result sizes uploadOk uid st).2.disk) ∧
    ((perform_download result sizes uploadOk uid st).1 = PerformOutcome.exceptionShown →
      r.filepath ∈ (perform_download result sizes uploadOk uid st).2.disk) := by
  subst hres
  have hclean : cleanup_file (st.disk ++ [r.filepath]) r.filepath = st.disk :=
    erase_append_self hfresh
  unfold perform_download
  dsimp only
  split
  · exact ⟨fun _ => by simp [hclean, hfresh], fun h => by simp at h⟩
  · split
    · exact ⟨fun _ => by simp [hclean, hfresh], fun h => by simp at h⟩
    · constructor
      · intro h
        rcases h with h | h <;> simp at h
      · intro _
        simp

/-- C5 (amended, witness): concrete runs through each exit path — a small
file delivered (removed), an oversized file rejected (removed), and an
upload exception (file remains). -/
theorem cleanup_on_non_exception_paths_witness :
    "a.mp4" ∉ (perform_download (some ⟨"a.mp4", false⟩) (fun _ => 1000) true 7
        ⟨dbEmpty, []⟩).2.disk ∧
    "b.mp4" ∉ (perform_download (some ⟨"b.mp4", false⟩) (fun _ => 52428801) true 7
        ⟨dbEmpty, []⟩).2.disk ∧
    "c.mp4" ∈ (perform_download (some ⟨"c.mp4", false⟩) (fun _ => 1000) false 7
        ⟨dbEmpty, []⟩).2.disk := by
  refine ⟨?_, ?_, ?_⟩
  · exact (cleanup_on_non_exception_paths (some ⟨"a.mp4", false⟩) (fun _ => 1000) true 7
      ⟨dbEmpty, []⟩ ⟨"a.mp4", false⟩ rfl (by decide)).1 (by left; decide)
  · exact (cleanup_on_non_exception_paths (some ⟨"b.mp4", false⟩) (fun _ => 52428801) true 7
      ⟨dbEmpty, []⟩ ⟨"b.mp4", false⟩ rfl (by decide)).1 (by right; decide)
  · exact (cleanup_on_non_exception_paths (some ⟨"c.mp4", false⟩) (fun _ => 1000) false 7
      ⟨dbEmpty, []⟩ ⟨"c.mp4", false⟩ rfl (by decide)).2 (by decide)

/-- C4: the size gate compares with `> 50 * 1024 * 1024`.  A fetched file
strictly larger than 50 MiB is rejected with the FILE_TOO_LARGE reply and
no longer exists on disk afterwards; a file of exactly 50 MiB passes the
gate and (when the upload succeeds) is delivered, removed from disk, and
counted. -/
theorem size_gate_threshold (result : Option YtdlpResult)
    (sizes : String → Nat) (uploadOk : Bool) (uid : Nat) (st : PipelineState)
    (r : YtdlpResult) (hres : result = some r) (hfresh : r.filepath ∉ st.disk) :
    (fileSizeLimit < sizes r.filepath →
      (perform_download result sizes uploadOk uid st).1 = PerformOutcome.tooLarge ∧
      r.filepath ∉ (perform_download result sizes uploadOk uid st).2.disk) ∧
    (sizes r.filepath = fileSizeLimit → uploadOk = true →
      (perform_download result sizes uploadOk uid st).1 = PerformOutcome.delivered ∧
      r.filepath ∉ (perform_download result sizes uploadOk uid st).2.disk ∧
      (perform_download result sizes uploadOk uid st).2.db.download_count uid =
        st.db.download_count uid + 1) := by
  subst hres
  have hclean : cleanup_file (st.disk ++ [r.filepath]) r.filepath = st.disk :=
    erase_append_self hfresh
  have hmem : r.filepath ∈ st.disk ++ [r.filepath] :=
    List.mem_append_right _ (List.mem_singleton.2 rfl)
  have hsize : get_file_size sizes (st.disk ++ [r.filepath]) r.filepath = sizes r.filepath := by
    simp [get_file_size, hmem]
  constructor
  · intro hbig
    unfold perform_download
    dsimp only
    rw [hsize, if_pos hbig]
    exact ⟨rfl, by simp [hclean, hfresh]⟩
  · intro hexact hup
    subst hup
    unfold perform_download
    dsimp only
    rw [hsize, hexact, if_neg (lt_irrefl fileSizeLimit), if_pos rfl]
    refine ⟨rfl, by simp [hclean, hfresh], ?_⟩
    simp [DB.increment_download_count, DB.add_download]

/-- C4 (witness): a 50 MiB + 1 byte file is rejected and removed; a file
of exactly 50 MiB (52428800 bytes) is delivered, removed and counted. -/
theorem size_gate_threshold_witness :
    ((perform_download (some ⟨"big.mp4", false⟩) (fun _ => 52428801) true 7
        ⟨dbEmpty, []⟩).1 = PerformOutcome.tooLarge ∧
     "big.mp4" ∉ (perform_download (some ⟨"big.mp4", false⟩) (fun _ => 52428801) true 7
        ⟨dbEmpty, []⟩).2.disk) ∧
    ((perform_download (some ⟨"ok.mp4", false⟩) (fun _ => 52428800) true 7
        ⟨dbEmpty, []⟩).1 = PerformOutcome.delivered ∧
     "ok.mp4" ∉ (perform_download (some ⟨"ok.mp4", false⟩) (fun _ => 52428800) true 7
        ⟨dbEmpty, []⟩).2.disk ∧
     (perform_download (some ⟨"ok.mp4", false⟩) (fun _ => 52428800) true 7
        ⟨dbEmpty, []⟩).2.db.download_count 7 = dbEmpty.download_count 7 + 1) := by
  constructor
  · exact (size_gate_threshold (some ⟨"big.mp4", false⟩) (fun _ => 52428801) true 7
      ⟨dbEmpty, []⟩ ⟨"big.mp4", false⟩ rfl (by decide)).1 (by decide)
  · exact (size_gate_threshold (some ⟨"ok.mp4", false⟩) (fun _ => 52428800) true 7
      ⟨dbEmpty, []⟩ ⟨"ok.mp4", false⟩ rfl (by decide)).2 (by decide) rfl

/-! ## C2 — the verified-account gate of the Instagram pipeline -/

/-- C2: with the membership middleware passing, an identity that owns no
Verified linked account gets the NoVerifiedAccount outcome with *no*
network fetch attempt (empty event list, states untouched); and any run
that delivers through the Instagram pipeline (carousel delivery or the
yt-dlp fallback delivery inside it) started from an identity owning at
least one Verified linked account. -/
theorem verified_account_gate (env : IgEnv) (uid : Nat) (text : String)
    (rl : RateLimiter) (now : ℚ) (st : PipelineState)
    (hm : env.member = true) :
    (st.db.has_verified_account uid = false →
      download_handler env uid text rl now st = (.noVerifiedAccount, rl, st, [])) ∧
    (∀ d rj rl' st' evs,
      download_handler env uid text rl now st = (.deliveredCarousel d rj, rl', st', evs) →
      st.db.has_verified_account uid = true) ∧
    (∀ rl' st' evs,
      download_handler env uid text rl now st = (.fallbackDelivered, rl', st', evs) →
      st.db.has_verified_account uid = true) := by
  refine ⟨fun hv => ?_, ?_, ?_⟩
  · unfold download_handler
    simp [hm, hv]
  · intro d rj rl' st' evs heq
    cases hv : st.db.has_verified_account uid with
    | true => rfl
    | false =>
      unfold download_handler at heq
      simp [hm, hv] at heq
  · intro rl' st' evs heq
    cases hv : st.db.has_verified_account uid with
    | true => rfl
    | false =>
      unfold download_handler at heq
      simp [hm, hv] at heq

/-- An environment in which every backend call would succeed, used to show
that the gate stops the run before any of them is attempted. -/
def envBackendsReady : IgEnv :=
  { member := true, ig_init := true,
    media_info := some ⟨"bob", "photo", 0, 0⟩,
    ig_files := some ["x.jpg"], ytdlp_result := some ⟨"y.mp4", false⟩,
    sizes := fun _ => 1000 }

/-- C2 (witness): identity 7 submits an Instagram post link with no
Verified linked account; the pipeline returns NoVerifiedAccount and the
fetch-event trace is empty. -/
theorem verified_account_gate_witness :
    download_handler envBackendsReady 7 "https://instagram.com/p/ABC123/"
      ⟨fun _ => none⟩ 0 ⟨dbEmpty, []⟩ =
      (.noVerifiedAccount, ⟨fun _ => none⟩, ⟨dbEmpty, []⟩, []) :=
  (verified_account_gate envBackendsReady 7 "https://instagram.com/p/ABC123/"
    ⟨fun _ => none⟩ 0 ⟨dbEmpty, []⟩ rfl).1 rfl

/-! ## C10 — carousel size-rejection and the single counter increment -/

/-- What the per-file carousel loop does when every listed file is a fresh
distinct file on disk: the delivered list is exactly the files within the
size limit, the rejected list exactly those above it, the loop itself
never touches the per-user download counter, and afterwards a path is on
disk iff it was there before and was not one of the processed files. -/
theorem carouselLoop_spec (sizes : String → Nat) (files : List String) :
    ∀ st : PipelineState, files.Nodup → (∀ fp ∈ files, fp ∈ st.disk) → st.disk.Nodup →
      (carouselLoop sizes files st).2.1 =
        files.filter (fun fp => sizes fp ≤ fileSizeLimit) ∧
      (carouselLoop sizes files st).2.2 =
        files.filter (fun fp => fileSizeLimit < sizes fp) ∧
      (carouselLoop sizes files st).1.db.download_count = st.db.download_count ∧
      ∀ x, x ∈ (carouselLoop sizes files st).1.disk ↔ x ∈ st.disk ∧ x ∉ files := by
  induction files with
  | nil =>
    intro st _ _ _
    simp [carouselLoop]
  | cons fp rest ih =>
    intro st hnd hmem hdisk
    have hfp : fp ∈ st.disk := hmem fp (List.mem_cons_self fp rest)
    obtain ⟨hfpr, hndr⟩ := List.nodup_cons.1 hnd
    have hsize : get_file_size sizes st.disk fp = sizes fp := by simp [get_file_size, hfp]
    have hmemr : ∀ g ∈ rest, g ∈ cleanup_file st.disk fp := by
      intro g hg
      refine (List.mem_erase_of_ne ?_).2 (hmem g (List.mem_cons_of_mem fp hg))
      intro hgf
      exact hfpr (by rw [← hgf]; exact hg)
    have hdiskr : (cleanup_file st.disk fp).Nodup := hdisk.erase fp
    by_cases hgt : fileSizeLimit < sizes fp
    · obtain ⟨hdel, hrej, hcnt, hdiskIff⟩ :=
        ih { st with disk := cleanup_file st.disk fp } hndr hmemr hdiskr
      have hstep : carouselLoop sizes (fp :: rest) st =
          ((carouselLoop sizes rest { st with disk := cleanup_file st.disk fp }).1,
           (carouselLoop sizes rest { st with disk := cleanup_file st.disk fp }).2.1,
           fp :: (carouselLoop sizes rest { st with disk := cleanup_file st.disk fp }).2.2) := by
        simp [carouselLoop, hfp, hsize, hgt]
      rw [hstep]
      refine ⟨?_, ?_, hcnt, ?_⟩
      · rw [hdel, List.filter_cons]
        simp [not_le.2 hgt]
      · rw [hrej, List.filter_cons]
        simp [hgt]
      · intro x
        rw [hdiskIff x]
        simp only [cleanup_file, hdisk.mem_erase_iff, List.mem_cons]
        tauto
    · obtain ⟨hdel, hrej, hcnt, hdiskIff⟩ :=
        ih { db := st.db.add_download, disk := cleanup_file st.disk fp } hndr hmemr hdiskr
      have hstep : carouselLoop sizes (fp :: rest) st =
          ((carouselLoop sizes rest
              { db := st.db.add_download, disk := cleanup_file st.disk fp }).1,
           fp :: (carouselLoop sizes rest
              { db := st.db.add_download, disk := cleanup_file st.disk fp }).2.1,
           (carouselLoop sizes rest
              { db := st.db.add_download, disk := cleanup_file st.disk fp }).2.2) := by
        simp [carouselLoop, hfp, hsize, hgt]
      rw [hstep]
      refine ⟨?_, ?_, hcnt, ?_⟩
      · rw [hdel, List.filter_cons]
        simp [not_lt.1 hgt]
      · rw [hrej, List.filter_cons]
        simp [hgt]
      · intro x
        rw [hdiskIff x]
        simp only [cleanup_file, hdisk.mem_erase_iff, List.mem_cons]
        tauto

/-- C10: in the Instagram multi-file delivery, oversized files are
rejected and deleted while the remaining files of the same post are still
delivered, and the identity's download counter is incremented exactly once
after the loop, regardless of how many files were size-rejected; all the
fetched files (delivered or rejected) are gone from disk afterwards. -/
theorem carousel_rejects_and_counts_once (env : IgEnv) (uid : Nat) (text : String)
    (rl : RateLimiter) (now : ℚ) (st : PipelineState) (mi : MediaInfo)
    (files : List String)
    (hm : env.member = true) (hv : st.db.has_verified_account uid = true)
    (hrl : rl.last_request uid = none)
    (hurl : extract_instagram_url_found text = true)
    (hinit : env.ig_init = true) (hmi : env.media_info = some mi)
    (hfiles : env.ig_files = some files) (hne : files ≠ [])
    (hnd : (st.disk ++ files).Nodup) :
    (download_handler env uid text rl now st).1 =
      IgOutcome.deliveredCarousel
        (files.filter (fun fp => env.sizes fp ≤ fileSizeLimit))
        (files.filter (fun fp => fileSizeLimit < env.sizes fp)) ∧
    (download_handler env uid text rl now st).2.2.1.db.download_count uid =
      st.db.download_count uid + 1 ∧
    ∀ fp ∈ files, fp ∉ (download_handler env uid text rl now st).2.2.1.disk := by
  have hok : (rl.can_proceed uid now 5).1.1 = true := by
    unfold RateLimiter.can_proceed
    rw [hrl]
  obtain ⟨hdel, hrej, hcnt, hdiskIff⟩ :=
    carouselLoop_spec env.sizes files { st with disk := st.disk ++ files }
      (hnd.of_append_right)
      (fun fp hfp => List.mem_append_right _ hfp)
      hnd
  have hstep : download_handler env uid text rl now st =
      (.deliveredCarousel
          (carouselLoop env.sizes files { st with disk := st.disk ++ files }).2.1
          (carouselLoop env.sizes files { st with disk := st.disk ++ files }).2.2,
        (rl.can_proceed uid now 5).2,
        { carouselLoop env.sizes files { st with disk := st.disk ++ files } |>.1 with
            db := (carouselLoop env.sizes files
                { st with disk := st.disk ++ files }).1.db.increment_download_count uid },
        [FetchEvent.igGetMediaInfo, FetchEvent.igDownloadMedia]) := by
    unfold download_handler
    simp [hm, hv, hok, hurl, hinit, hmi, hfiles, hne]
  rw [hstep]
  refine ⟨by rw [hdel, hrej], ?_, ?_⟩
  · simp [DB.increment_download_count, congrFun hcnt uid]
  · intro fp hfp
    intro hmem2
    exact ((hdiskIff fp).1 hmem2).2 hfp

/-- A database in which identity 7 owns one verified account. -/
def dbVerified : DB :=
  { pending_verifications := [], instagram_accounts := [⟨1, 7, "alice", true⟩],
    download_count := fun _ => 0, downloads := 0 }

/-- A carousel environment: two fetched files, one of them one byte over
the 50 MiB limit. -/
def envCarousel : IgEnv :=
  { member := true, ig_init := true, media_info := some ⟨"bob", "album", 3, 1⟩,
    ig_files := some ["a.jpg", "b.mp4"], ytdlp_result := none,
    sizes := fun p => if p = "b.mp4" then 52428801 else 1000 }

/-- C10 (witness): of the two fetched carousel files, the oversized
`b.mp4` is rejected while `a.jpg` is still delivered; the counter ends at
exactly 1 and both files are gone from disk. -/
theorem carousel_rejects_and_counts_once_witness :
    (download_handler envCarousel 7 "https://instagram.com/p/ABC123/"
        ⟨fun _ => none⟩ 0 ⟨dbVerified, []⟩).1 =
      IgOutcome.deliveredCarousel ["a.jpg"] ["b.mp4"] ∧
    (download_handler envCarousel 7 "https://instagram.com/p/ABC123/"
        ⟨fun _ => none⟩ 0 ⟨dbVerified, []⟩).2.2.1.db.download_count 7 = 1 ∧
    "b.mp4" ∉ (download_handler envCarousel 7 "https://instagram.com/p/ABC123/"
        ⟨fun _ => none⟩ 0 ⟨dbVerified, []⟩).2.2.1.disk := by
  have h := carousel_rejects_and_counts_once envCarousel 7
    "https://instagram.com/p/ABC123/" ⟨fun _ => none⟩ 0 ⟨dbVerified, []⟩
    ⟨"bob", "album", 3, 1⟩ ["a.jpg", "b.mp4"]
    rfl rfl rfl (by decide) rfl rfl rfl (by decide) (by decide)
  exact ⟨h.1.trans (by decide), h.2.1.trans rfl, h.2.2 "b.mp4" (by decide)⟩

/-! ## C8 — quality tiers and the presented menu -/

/-- Membership through one insertion step. -/
theorem mem_insertByHeight {x f : ParsedFormat} {l : List ParsedFormat} :
    x ∈ insertByHeight f l ↔ x = f ∨ x ∈ l := by
  induction l with
  | nil => simp [insertByHeight]
  | cons g gs ih =>
    simp only [insertByHeight]
    split
    · simp only [List.mem_cons, ih]
      tauto
    · simp only [List.mem_cons]

/-- Inserting preserves descending order on heights. -/
theorem pairwise_insertByHeight {f : ParsedFormat} {l : List ParsedFormat}
    (hl : l.Pairwise (fun a b => b.height ≤ a.height)) :
    (insertByHeight f l).Pairwise (fun a b => b.height ≤ a.height) := by
  induction l with
  | nil => simp [insertByHeight]
  | cons g gs ih =>
    obtain ⟨hg, hgs⟩ := List.pairwise_cons.1 hl
    simp only [insertByHeight]
    split
    · refine List.pairwise_cons.2 ⟨?_, ih hgs⟩
      intro x hx
      rcases mem_insertByHeight.1 hx with rfl | hx
      · omega
      · exact hg x hx
    · refine List.pairwise_cons.2 ⟨?_, List.pairwise_cons.2 ⟨hg, hgs⟩⟩
      intro x hx
      rcases List.mem_cons.1 hx with rfl | hx
      · omega
      · have := hg x hx
        omega

/-- One insertion step is a permutation of consing. -/
theorem perm_insertByHeight (f : ParsedFormat) (l : List ParsedFormat) :
    List.Perm (insertByHeight f l) (f :: l) := by
  induction l with
  | nil => rfl
  | cons g gs ih =>
    simp only [insertByHeight]
    split
    · exact (ih.cons g).trans (List.Perm.swap f g gs)
    · rfl

/-- The stable descending sort permutes its input. -/
theorem perm_sortByHeightDesc (l : List ParsedFormat) :
    List.Perm (sortByHeightDesc l) l := by
  induction l with
  | nil => rfl
  | cons f fs ih => exact (perm_insertByHeight f (sortByHeightDesc fs)).trans (ih.cons f)

/-- The stable descending sort sorts by height, highest first. -/
theorem pairwise_sortByHeightDesc (l : List ParsedFormat) :
    (sortByHeightDesc l).Pairwise (fun a b => b.height ≤ a.height) := by
  induction l with
  | nil => exact List.Pairwise.nil
  | cons f fs ih => exact pairwise_insertByHeight ih

/-- The deduplication loop emits pairwise-distinct quality labels, none of
which is already in the `seen_qualities` accumulator. -/
theorem parseFormatsLoop_labels (fs : List RawFormat) :
    ∀ seen : List String,
      (parseFormatsLoop fs seen).Pairwise (fun a b => a.quality ≠ b.quality) ∧
      ∀ p ∈ parseFormatsLoop fs seen, p.quality ∉ seen := by
  induction fs with
  | nil => intro seen; simp [parseFormatsLoop]
  | cons fmt rest ih =>
    intro seen
    simp only [parseFormatsLoop]
    split
    · exact ih seen
    · split
      · exact ih seen
      · split
        · exact ih seen
        · rename_i hurl hskip hseen
          obtain ⟨hpw, hnotin⟩ := ih (qualityLabel fmt :: seen)
          constructor
          · refine List.pairwise_cons.2 ⟨?_, hpw⟩
            intro p hp
            have := hnotin p hp
            simp only [List.mem_cons, not_or] at this
            exact fun hq => this.1 hq.symm
          · intro p hp
            rcases List.mem_cons.1 hp with rfl | hp
            · exact hseen
            · have := hnotin p hp
              simp only [List.mem_cons, not_or] at this
              exact this.2

/-- C8 (counterexample): the quality menu shown to the user does not
depend on the retrieved formats at all.  Two successful probes — one
retrieving only a 1080p format, one retrieving only a 144p format — are
shown the *same* fixed menu (best / 720p / 480p / 360p / 240p / audio),
although their parsed tier lists differ; in particular, for the probe
whose only retrievable tier is 1080p, no 1080p option is presented. -/
theorem quality_menu_ignores_probed_formats :
    ytdlp_quality_menu (some [⟨true, "137", "mp4", 1080, 1920, 0, "avc1", "none", ""⟩]) =
      ytdlp_quality_menu (some [⟨true, "160", "mp4", 144, 256, 0, "avc1", "none", ""⟩]) ∧
    parse_formats [⟨true, "137", "mp4", 1080, 1920, 0, "avc1", "none", ""⟩] ≠
      parse_formats [⟨true, "160", "mp4", 144, 256, 0, "avc1", "none", ""⟩] ∧
    (parse_formats [⟨true, "137", "mp4", 1080, 1920, 0, "avc1", "none", ""⟩]).map
        (fun p => p.quality) = ["1080p"] ∧
    ytdlp_quality_menu (some [⟨true, "137", "mp4", 1080, 1920, 0, "avc1", "none", ""⟩]) =
      some [[.best], [.q720, .q480], [.q360, .q240], [.audio], [.cancel]] := by
  decide

/-- C8 (amended): the backend's format parser does produce distinct
height-labelled tiers — deduplicated by quality label, sorted highest
first, and capped to 8 — but the menu the user is shown is the fixed
five-button video menu (best, then 720p/480p/360p/240p in descending
order) plus one audio-only option and a cancel button, independent of the
parsed tiers. -/
theorem quality_tiers_shape (raws : List RawFormat) :
    (parse_formats raws).Pairwise (fun a b => a.quality ≠ b.quality) ∧
    (parse_formats raws).Pairwise (fun a b => b.height ≤ a.height) ∧
    (parse_formats raws).length ≤ 8 ∧
    ytdlp_quality_menu (some raws) =
      some [[.best], [.q720, .q480], [.q360, .q240], [.audio], [.cancel]] := by
  refine ⟨?_, ?_, ?_, rfl⟩
  · have hperm := perm_sortByHeightDesc (parseFormatsLoop raws [])
    have hpw := (parseFormatsLoop_labels raws []).1
    have hsorted := (hperm.pairwise_iff (fun h h2 => h h2.symm)).2 hpw
    exact hsorted.sublist (List.take_sublist 8 _)
  · exact (pairwise_sortByHeightDesc _).sublist (List.take_sublist 8 _)
  · simp [parse_formats]

end MXBot
